import Mathlib

/-!
Shallow embedding of the cluster-VPC private-subnet reconciliation code
(`buildSubnetAddress`, `generateAvailableSubnets`, `incrementIP`,
`containsNetwork`, `createPrivateSubnet`, `tagPrivateSubnet`,
`privateSubnetExists`, `GetVPCSubnets`, `GetPrivateSubnetIDS`).

Modelling conventions:
* packed IPv4 addresses are `Nat` values, with overflow written explicitly
  as `% 2 ^ 32`; Go's 64-bit unsigned arithmetic is `% 2 ^ 64`;
* Go `(value, error)` return pairs become products with `Option GoError`
  errors (a `none` error is Go's `nil` error);
* blocking provider calls (`CreateSubnet`, `CreateTags`, `DescribeSubnets`,
  `DescribeAvailabilityZones`, `getClusterVpc`) are oracles passed in as
  function arguments or pre-computed results;
* provider requests that mutate state are additionally recorded as an
  event trace (`AwsEvent`), so that "issues no creation / deletion
  request" is a statement about the trace;
* `net.ParseCIDR` (Go standard library, external to the repository) is
  modelled by its observable outcome `CidrParse`: the string is empty,
  unparsable, or parses to a packed address and a mask length, in which
  case the returned network address is the address masked to that length.
-/

namespace ClusterNetwork

/-- Go `awserr.Error`; the code only inspects `Code()`. -/
structure AwsErr where
  code : String
  deriving DecidableEq

/-- Go `error` values as the source produces them: raw AWS API errors,
`errorUtil.New`, and `errorUtil.Wrap`/`Wrapf` wrappers around a cause. -/
inductive GoError where
  | aws (e : AwsErr)
  | new (msg : String)
  | wrap (cause : GoError) (msg : String)
  deriving DecidableEq

/-- `errorUtil.Wrap` from github.com/pkg/errors: wrapping a `nil` error
returns `nil`, otherwise it returns a new error with the given message. -/
def errWrap : Option GoError → String → Option GoError
  | none, _ => none
  | some e, msg => some (.wrap e msg)

/-- An EC2 tag (`*ec2.Tag` with its two string fields dereferenced). -/
structure Tag where
  key : String
  value : String
  deriving DecidableEq

/-- An `*ec2.Subnet` restricted to the fields the code reads. -/
structure Subnet where
  subnetId : String
  vpcId : String
  availabilityZone : String
  tags : List Tag
  deriving DecidableEq

/-- An `*ec2.AvailabilityZone` restricted to the fields the code reads. -/
structure AZ where
  zoneName : String
  state : String
  deriving DecidableEq

/-- Outcome of `net.ParseCIDR` on the VPC's `CidrBlock` string: the string
is empty, fails to parse, or parses to packed address `ip` with mask
length `p` (the parsed `IPNet.IP` is `ip` masked to `p` bits). -/
inductive CidrParse where
  | empty
  | invalid (s : String)
  | valid (ip p : Nat)
  deriving DecidableEq

/-- An `*ec2.Vpc` restricted to the fields the code reads. -/
structure Vpc where
  vpcId : String
  cidrBlock : CidrParse
  deriving DecidableEq

/-- A `net.IPNet`: packed base address and mask length. -/
structure IPNet where
  ip : Nat
  maskLen : Nat
  deriving DecidableEq

/-- `kubernetes.io/role/internal-elb`, the private-subnet marker tag key. -/
def defaultAWSPrivateSubnetTagKey : String := "kubernetes.io/role/internal-elb"

/-- The fixed target mask length for generated subnets. -/
def defaultSubnetMask : Nat := 27

/-- Joining the four bytes of a packed IPv4 address back into one integer,
as `incrementIP` does with shifts (`uint(ipv4[0])<<24 + ...`). -/
def joinIPBytes (ip : Nat) : Nat :=
  ip / 2 ^ 24 % 2 ^ 8 * 2 ^ 24 + ip / 2 ^ 16 % 2 ^ 8 * 2 ^ 16
    + ip / 2 ^ 8 % 2 ^ 8 * 2 ^ 8 + ip % 2 ^ 8

/-- Re-extracting the four bytes (`byte(joinedBytes >> k & 0xFF)`) and
packing them into an IPv4 address via `net.IPv4`. -/
def unpackIPBytes (j : Nat) : Nat :=
  j / 2 ^ 24 % 2 ^ 8 * 2 ^ 24 + j / 2 ^ 16 % 2 ^ 8 * 2 ^ 16
    + j / 2 ^ 8 % 2 ^ 8 * 2 ^ 8 + j % 2 ^ 8

/-- `incrementIP` from the source: join the bytes of the address into one
unsigned integer (Go `uint`, 64 bits, hence the `% 2 ^ 64`), add `inc`,
and unpack the low four bytes into an address again. -/
def incrementIP (ip inc : Nat) : Nat :=
  unpackIPBytes ((joinIPBytes ip + inc) % 2 ^ 64)

/-- `GetVPCSubnets` from the source. `getSubnetsRes` is the outcome of the
polled `getSubnets` provider read; `vpc` is the (possibly nil) VPC
argument. Returns the Go pair `([]*ec2.Subnet, error)`. Note the nil-VPC
guard wraps the current `err`, which is `nil` at that point. -/
def GetVPCSubnets (getSubnetsRes : Except GoError (List Subnet)) (vpc : Option Vpc) :
    Option (List Subnet) × Option GoError :=
  match getSubnetsRes with
  | .error e => (none, some (.wrap e "error getting subnets"))
  | .ok subs =>
    match vpc with
    | none => (none, errWrap none "vpc is nil, need vpc to find associated subnets")
    | some v =>
      let associatedSubs := subs.filter (fun sub => sub.vpcId == v.vpcId)
      if associatedSubs.isEmpty then
        (none, some (.new "error, unable to find subnets associated with cluster vpc"))
      else
        (some associatedSubs, none)

/-- `ip.Mask(CIDRMask(p, 32))` on a packed address: clear the low
`32 - p` bits. -/
def maskN (p ip : Nat) : Nat := ip / 2 ^ (32 - p) * 2 ^ (32 - p)

/-- `(&net.IPNet{IP: netIP, Mask: /p}).Contains target`: the target
masked to `p` bits equals the (already masked) network address. -/
def cidrContains (netIP p target : Nat) : Bool := maskN p target == netIP

/-- `containsNetwork` from the source: linear scan comparing the base
address of each collected network with `toFind` (`n.IP.Equal(toFind)`). -/
def containsNetwork (networks : List IPNet) (toFind : Nat) : Bool :=
  networks.any (fun n => n.ip == toFind)

/-- The `for i := 0; fromCIDR.Contains(incrementIP(toIPv4, i)); i++` loop
body of `generateAvailableSubnets`: step the address by one, mask it down
to `toPre` bits, and append it unless it is already collected. The Go
loop has no fuel; it terminates in at most `2 ^ (32 - fromPre)` steps
whenever `1 ≤ fromPre` (for a `/0` parent it never terminates), so a fuel
of `2 ^ 32` makes the model agree with the source on every terminating
run. -/
def genLoop (fromIP fromPre toIPv4 toPre : Nat) : Nat → Nat → List IPNet → List IPNet
  | 0, _, networks => networks
  | fuel + 1, i, networks =>
    if cidrContains fromIP fromPre (incrementIP toIPv4 i) then
      if containsNetwork networks (maskN toPre (incrementIP toIPv4 i)) then
        genLoop fromIP fromPre toIPv4 toPre fuel (i + 1) networks
      else
        genLoop fromIP fromPre toIPv4 toPre fuel (i + 1)
          (networks ++ [⟨maskN toPre (incrementIP toIPv4 i), toPre⟩])
    else networks

/-- `generateAvailableSubnets` from the source: seed the collection with
`toCIDR` itself, then run the stepping loop. -/
def generateAvailableSubnets (fromIP fromPre toIP toPre : Nat) : List IPNet :=
  genLoop fromIP fromPre toIP toPre (2 ^ 32) 0 [⟨toIP, toPre⟩]

/-- `buildSubnetAddress` from the source: reject an empty or unparsable
VPC CIDR block and a mask size of `defaultSubnetMask` or larger;
otherwise build the smallest CRO CIDR (the VPC network address at
`/defaultSubnetMask` — re-parsing `"ip/27"` masks the address again),
generate all candidate sub-networks, and return them reversed. -/
def buildSubnetAddress (vpc : Vpc) : Except GoError (List IPNet) :=
  match vpc.cidrBlock with
  | .empty => .error (.new "vpc cidr block can't be empty")
  | .invalid s => .error (.wrap (.new s) "failed to parse vpc cidr block")
  | .valid ip p =>
    let awsCIDRip := maskN p ip
    if defaultSubnetMask ≤ p then
      .error (.new "vpc cidr block cannot contain generated subnet mask /27")
    else
      let croIP := maskN defaultSubnetMask awsCIDRip
      .ok (generateAvailableSubnets awsCIDRip p croIP defaultSubnetMask).reverse

/-- A mutating AWS request issued by the code, recorded as a trace event.
The source contains no `DeleteSubnet` call at all, so no definition in
this file ever emits `deleteSubnetReq`; the constructor exists so that
"no deletion request is issued" is a statement rather than a typing
accident. -/
inductive AwsEvent where
  | createSubnetReq (vpcId zone : String) (cidr : IPNet)
  | createTagsReq (subnetId : String)
  | deleteSubnetReq (subnetId : String)
  deriving DecidableEq

/-- The error inspection in `createPrivateSubnet`: the type assertion
`err.(awserr.Error)` succeeds and `Code() == "InvalidSubnet.Conflict"`. -/
def isAwsConflict : GoError → Bool
  | .aws e => e.code == "InvalidSubnet.Conflict"
  | _ => false

/-- Whether a recorded request is a subnet deletion. -/
def AwsEvent.isDelete : AwsEvent → Bool
  | .deleteSubnetReq _ => true
  | _ => false

/-- Whether a recorded request is a subnet creation targeting `zone`. -/
def isCreateSubnetReqIn (zone : String) : AwsEvent → Bool
  | .createSubnetReq _ z _ => z == zone
  | _ => false

/-- `tagPrivateSubnet` from the source: fetch the default tags
(`defaultTagsRes` is the outcome of `getDefaultSubnetTags`), then issue
`CreateTags` (its outcome is the oracle `createTagsFn`); a `CreateTags`
failure is wrapped as "failed to tag subnet". -/
def tagPrivateSubnet (defaultTagsRes : Except GoError (List Tag))
    (createTagsFn : Subnet → List Tag → Option GoError) (sub : Subnet) :
    Option GoError × List AwsEvent :=
  match defaultTagsRes with
  | .error e => (some e, [])
  | .ok tags =>
    match createTagsFn sub tags with
    | some e => (some (.wrap e "failed to tag subnet"), [.createTagsReq sub.subnetId])
    | none => (none, [.createTagsReq sub.subnetId])

/-- The `for _, ip := range subs` creation loop of `createPrivateSubnet`:
try each candidate; an `InvalidSubnet.Conflict` AWS error means
`continue`, any other error aborts with a wrapped cause, and on success
the subnet is tagged and the loop breaks. Falling off the end of the
loop leaves `subnet` as `nil`; the source's `if subnet == nil { }` block
is empty, so the function then returns `(nil, nil)`. -/
def createSubnetAttempts (createFn : String → IPNet → Except GoError Subnet)
    (defaultTagsRes : Except GoError (List Tag))
    (createTagsFn : Subnet → List Tag → Option GoError)
    (vpcId zone : String) : List IPNet → Option Subnet × Option GoError × List AwsEvent
  | [] => (none, none, [])
  | ip :: rest =>
    match createFn zone ip with
    | .error e =>
      if isAwsConflict e then
        match createSubnetAttempts createFn defaultTagsRes createTagsFn vpcId zone rest with
        | (subnet, err, evs) => (subnet, err, .createSubnetReq vpcId zone ip :: evs)
      else
        (none, some (.wrap e "error creating new subnet"), [.createSubnetReq vpcId zone ip])
    | .ok s =>
      match tagPrivateSubnet defaultTagsRes createTagsFn s with
      | (some e, tagEvs) => (none, some e, .createSubnetReq vpcId zone ip :: tagEvs)
      | (none, tagEvs) => (some s, none, .createSubnetReq vpcId zone ip :: tagEvs)

/-- `createPrivateSubnet` from the source: build the candidate list and
run the creation loop. `createFn` is the `CreateSubnet` provider call
(keyed by zone and CIDR; the VPC id is fixed). -/
def createPrivateSubnet (createFn : String → IPNet → Except GoError Subnet)
    (defaultTagsRes : Except GoError (List Tag))
    (createTagsFn : Subnet → List Tag → Option GoError)
    (vpc : Vpc) (zone : String) : Option Subnet × Option GoError × List AwsEvent :=
  match buildSubnetAddress vpc with
  | .error e => (none, some (.wrap e "failed to build subnets"), [])
  | .ok subs => createSubnetAttempts createFn defaultTagsRes createTagsFn vpc.vpcId zone subs

/-- `privateSubnetExists` from the source: true iff some private subnet
sits in the zone and the zone's own state is `"available"`. -/
def privateSubnetExists (privSubs : List Subnet) (zone : AZ) : Bool :=
  privSubs.any (fun subnet =>
    subnet.availabilityZone == zone.zoneName && zone.state == "available")

/-- `privateSubnetExists` as executed on the running `privSubs` slice of
`GetPrivateSubnetIDS`, whose entries are `*ec2.Subnet` pointers that can
be `nil` (a `nil` is appended when `createPrivateSubnet` exhausts every
candidate): dereferencing a `nil` entry is a Go runtime panic, modelled
as `none`. -/
def privateSubnetExistsO : List (Option Subnet) → AZ → Option Bool
  | [], _ => some false
  | none :: _, _ => none
  | some subnet :: rest, zone =>
    if subnet.availabilityZone == zone.zoneName && zone.state == "available" then some true
    else privateSubnetExistsO rest zone

/-- The private-subnet filter of `GetPrivateSubnetIDS`: the nested tag
loop appends the subnet once per tag whose key is the marker key. -/
def filterPrivate (subs : List Subnet) : List Subnet :=
  subs.flatMap (fun sub =>
    sub.tags.filterMap (fun t =>
      if t.key == defaultAWSPrivateSubnetTagKey then some sub else none))

/-- The `subIDs` collection loop of `GetPrivateSubnetIDS`:
`sub.SubnetId` dereferences each entry, so a `nil` subnet pointer in the
slice is a Go runtime panic, modelled as `none`. -/
def collectIds : List (Option Subnet) → Option (List String)
  | [] => some []
  | none :: _ => none
  | some s :: rest => (collectIds rest).map (fun ids => s.subnetId :: ids)

/-- Result of the per-AZ loop: a Go runtime panic, or the final slice
together with the loop's error. -/
inductive LoopRes where
  | panicked
  | done (privSubs : List (Option Subnet)) (err : Option GoError)
  deriving DecidableEq

/-- The Go return of `GetPrivateSubnetIDS`: a runtime panic, or the pair
`([]*string, error)`. -/
inductive GoRet where
  | panicked
  | ret (ids : Option (List String)) (err : Option GoError)
  deriving DecidableEq

/-- The `for _, az := range azs` loop of `GetPrivateSubnetIDS`: for each
zone without an available private subnet, create one; a creation error
aborts the whole function with a wrapped cause, otherwise the created
subnet (possibly `nil`) is appended to the running slice. -/
def processAZs (createFn : String → IPNet → Except GoError Subnet)
    (defaultTagsRes : Except GoError (List Tag))
    (createTagsFn : Subnet → List Tag → Option GoError) (vpc : Vpc) :
    List AZ → List (Option Subnet) → LoopRes × List AwsEvent
  | [], privSubs => (.done privSubs none, [])
  | az :: rest, privSubs =>
    match privateSubnetExistsO privSubs az with
    | none => (.panicked, [])
    | some true => processAZs createFn defaultTagsRes createTagsFn vpc rest privSubs
    | some false =>
      match createPrivateSubnet createFn defaultTagsRes createTagsFn vpc az.zoneName with
      | (_, some e, evs) =>
        (.done privSubs (some (.wrap e "failed to created private subnet")), evs)
      | (subnet, none, evs) =>
        match processAZs createFn defaultTagsRes createTagsFn vpc rest (privSubs ++ [subnet]) with
        | (res, evs2) => (res, evs ++ evs2)

/-- `GetPrivateSubnetIDS` from the source. `vpcRes` is the outcome of
`getClusterVpc`, `subnetsRes` the outcome of the polled `getSubnets`
read used by `GetVPCSubnets`, `azsRes` the outcome of `getAZs`;
`createFn`/`defaultTagsRes`/`createTagsFn` are the oracles used by
`createPrivateSubnet`. -/
def GetPrivateSubnetIDS (vpcRes : Except GoError Vpc)
    (subnetsRes : Except GoError (List Subnet)) (azsRes : Except GoError (List AZ))
    (createFn : String → IPNet → Except GoError Subnet)
    (defaultTagsRes : Except GoError (List Tag))
    (createTagsFn : Subnet → List Tag → Option GoError) : GoRet × List AwsEvent :=
  match vpcRes with
  | .error e => (.ret none (errWrap (some e) "error getting vpcs"), [])
  | .ok foundVPC =>
    match GetVPCSubnets subnetsRes (some foundVPC) with
    | (_, some e) => (.ret none (errWrap (some e) "error getting vpc subnets"), [])
    | (subsOpt, none) =>
      match azsRes with
      | .error e => (.ret none (errWrap (some e) "error getting availability zones"), [])
      | .ok azs =>
        match processAZs createFn defaultTagsRes createTagsFn foundVPC azs
            ((filterPrivate (subsOpt.getD [])).map some) with
        | (.panicked, evs) => (.panicked, evs)
        | (.done finalSubs err, evs) =>
          match err with
          | some e => (.ret none (some e), evs)
          | none =>
            match collectIds finalSubs with
            | none => (.panicked, evs)
            | some subIDs =>
              if subIDs.isEmpty then
                (.ret none (some (.new "failed to get list of private subnet ids")), evs)
              else
                (.ret (some subIDs) none, evs)

/-- A `CreateSubnet` oracle that always reports an address conflict. -/
def conflictCreateFn : String → IPNet → Except GoError Subnet :=
  fun _ _ => .error (.aws ⟨"InvalidSubnet.Conflict"⟩)

/-- A `CreateSubnet` oracle that always succeeds. -/
def okCreateFn : String → IPNet → Except GoError Subnet :=
  fun z _ => .ok ⟨"subnet-new", "vpc-1", z, []⟩

/-- A `CreateTags` oracle that always succeeds. -/
def noTagErrFn : Subnet → List Tag → Option GoError := fun _ _ => none

/-- A `CreateTags` oracle that always fails. -/
def failTagFn : Subnet → List Tag → Option GoError := fun _ _ => some (.new "tag api down")

theorem joinIPBytes_eq (ip : Nat) (h : ip < 2 ^ 32) : joinIPBytes ip = ip := by
  unfold joinIPBytes
  omega

theorem unpackIPBytes_eq (j : Nat) : unpackIPBytes j = j % 2 ^ 32 := by
  unfold unpackIPBytes
  omega

/-- Helper: the packed-arithmetic characterisation of `incrementIP`. -/
theorem incrementIP_eq (ip inc : Nat) (h : ip < 2 ^ 32) :
    incrementIP ip inc = (ip + inc) % 2 ^ 32 := by
  unfold incrementIP
  rw [joinIPBytes_eq ip h, unpackIPBytes_eq]
  rw [Nat.mod_mod_of_dvd _ (by norm_num : (2 : Nat) ^ 32 ∣ 2 ^ 64)]

/-- C10: for every IPv4 address and every non-negative increment `inc`,
`incrementIP` returns the address whose packed 32-bit value is
`(packed input + inc) % 2 ^ 32`. -/
theorem incrementIP_packed_add (ip inc : Nat) (h : ip < 2 ^ 32) :
    incrementIP ip inc = (ip + inc) % 2 ^ 32 :=
  incrementIP_eq ip inc h

theorem incrementIP_packed_add_witness :
    4294967295 < 2 ^ 32 ∧ incrementIP 4294967295 2 = (4294967295 + 2) % 2 ^ 32 :=
  ⟨by norm_num, incrementIP_packed_add 4294967295 2 (by norm_num)⟩

/-- C9: calling `GetVPCSubnets` with a nil VPC while the subnet listing
succeeds returns a nil subnet list together with a nil error (the nil-VPC
guard wraps the `nil` error of the successful listing, and wrapping `nil`
yields `nil`), not a non-nil error. -/
theorem GetVPCSubnets_nil_vpc (subs : List Subnet) :
    GetVPCSubnets (.ok subs) none = (none, none) := rfl

theorem GetVPCSubnets_nil_vpc_witness :
    GetVPCSubnets (.ok []) none = (none, none) :=
  GetVPCSubnets_nil_vpc []

/-- Helper: the generation loop never returns a shorter collection than it
was given, so it never returns `[]` when seeded with a network. -/
theorem genLoop_ne_nil (fromIP fromPre toIPv4 toPre : Nat) :
    ∀ fuel i networks, networks ≠ [] →
      genLoop fromIP fromPre toIPv4 toPre fuel i networks ≠ [] := by
  intro fuel
  induction fuel with
  | zero => intro i networks h; exact h
  | succ n ih =>
    intro i networks h
    unfold genLoop
    split
    · split
      · exact ih (i + 1) networks h
      · exact ih (i + 1) _ (by simp)
    · exact h

/-- C4: `buildSubnetAddress` fails exactly when the VPC CIDR block is
empty, unparsable, or has a mask length at least the target
`defaultSubnetMask = 27`; in every other case it returns a non-empty
candidate sequence without error. -/
theorem buildSubnetAddress_error_iff (v : Vpc) :
    ((∃ e, buildSubnetAddress v = .error e) ↔
      (v.cidrBlock = .empty ∨ (∃ s, v.cidrBlock = .invalid s) ∨
        ∃ ip p, v.cidrBlock = .valid ip p ∧ 27 ≤ p)) ∧
    (∀ l, buildSubnetAddress v = .ok l → l ≠ []) := by
  obtain ⟨vid, cb⟩ := v
  cases cb with
  | empty => exact ⟨by simp [buildSubnetAddress], by simp [buildSubnetAddress]⟩
  | invalid s => exact ⟨by simp [buildSubnetAddress], by simp [buildSubnetAddress]⟩
  | valid ip p =>
    by_cases hp : defaultSubnetMask ≤ p
    · refine ⟨?_, ?_⟩
      · simp only [buildSubnetAddress, hp, if_true]
        simp only [defaultSubnetMask] at hp
        simp only [Except.error.injEq, CidrParse.valid.injEq]
        constructor
        · intro _
          exact Or.inr (Or.inr ⟨ip, p, ⟨rfl, rfl⟩, hp⟩)
        · intro _
          exact ⟨_, rfl⟩
      · simp [buildSubnetAddress, hp]
    · refine ⟨?_, ?_⟩
      · simp only [buildSubnetAddress, hp, if_false]
        simp only [defaultSubnetMask] at hp
        simp [hp]
        omega
      · simp only [buildSubnetAddress, hp, if_false]
        intro l hl
        have hne := genLoop_ne_nil (maskN p ip) p (maskN defaultSubnetMask (maskN p ip))
          defaultSubnetMask (2 ^ 32) 0 [⟨maskN defaultSubnetMask (maskN p ip), defaultSubnetMask⟩]
          (by simp)
        simp only [Except.ok.injEq] at hl
        subst hl
        simpa [generateAvailableSubnets] using hne

theorem buildSubnetAddress_error_iff_witness :
    (∃ e, buildSubnetAddress ⟨"vpc-a", .valid 167772160 27⟩ = .error e) ∧
      buildSubnetAddress ⟨"vpc-b", .valid 167772160 26⟩ =
        .ok [⟨167772192, 27⟩, ⟨167772160, 27⟩] ∧
      ([⟨167772192, 27⟩, ⟨167772160, 27⟩] : List IPNet) ≠ [] :=
  ⟨(buildSubnetAddress_error_iff ⟨"vpc-a", .valid 167772160 27⟩).1.mpr
      (Or.inr (Or.inr ⟨167772160, 27, rfl, by norm_num⟩)),
    by rfl,
    (buildSubnetAddress_error_iff ⟨"vpc-b", .valid 167772160 26⟩).2 _ (by rfl)⟩

/-- Helper: masking to a shorter (or equal) prefix after masking to a
longer one is the same as masking to the shorter prefix directly. -/
theorem maskN_maskN (p q y : Nat) (hpq : p ≤ q) (hq : q ≤ 32) :
    maskN p (maskN q y) = maskN p y := by
  unfold maskN
  have hc : 2 ^ (32 - p) = 2 ^ (32 - q) * 2 ^ (q - p) := by
    rw [← pow_add]
    congr 1
    omega
  have ha : (0 : Nat) < 2 ^ (32 - q) := pow_pos (by norm_num) _
  rw [hc, ← Nat.div_div_eq_div_mul, ← Nat.div_div_eq_div_mul, Nat.mul_div_cancel _ ha]

/-- Helper: a `/27`-masked address is 32-aligned. -/
theorem maskN27_mod_32 (y : Nat) : maskN 27 y % 32 = 0 := by
  unfold maskN
  norm_num

/-- Helper: every address of a 32-aligned `/27` block lying in a parent
`/p` block (in the sense of its base address masking down to the parent
base) also masks down to the parent base, for `p ≤ 27`. -/
theorem maskN_of_block_member (p B x a : Nat) (hp : p ≤ 27) (hx32 : x % 32 = 0)
    (hmask : maskN p x = B) (h1 : x ≤ a) (h2 : a < x + 32) : maskN p a = B := by
  have hSpos : (0 : Nat) < 2 ^ (32 - p) := pow_pos (by norm_num) _
  have hS32 : (32 : Nat) ∣ 2 ^ (32 - p) := by
    have : (2 : Nat) ^ 5 ∣ 2 ^ (32 - p) := pow_dvd_pow 2 (by omega)
    simpa using this
  have hxmod : (32 : Nat) ∣ x % 2 ^ (32 - p) :=
    (Nat.dvd_mod_iff hS32).mpr (Nat.dvd_of_mod_eq_zero hx32)
  have hxS : x % 2 ^ (32 - p) < 2 ^ (32 - p) := Nat.mod_lt _ hSpos
  have hgap : x % 2 ^ (32 - p) + 32 ≤ 2 ^ (32 - p) := by
    obtain ⟨m1, hm1⟩ := hxmod
    obtain ⟨s1, hs1⟩ := hS32
    omega
  have hxdecomp : 2 ^ (32 - p) * (x / 2 ^ (32 - p)) + x % 2 ^ (32 - p) = x :=
    Nat.div_add_mod x (2 ^ (32 - p))
  have hadiv : a / 2 ^ (32 - p) = x / 2 ^ (32 - p) := by
    have ha2 : a = x % 2 ^ (32 - p) + (a - x) + 2 ^ (32 - p) * (x / 2 ^ (32 - p)) := by
      omega
    rw [ha2, Nat.add_mul_div_left _ _ hSpos, Nat.div_eq_of_lt (by omega)]
    omega
  unfold maskN at hmask ⊢
  rw [hadiv, hmask]

/-- Helper: `containsNetwork` is `false` iff no collected network has the
given base address. -/
theorem containsNetwork_eq_false (networks : List IPNet) (x : Nat) :
    containsNetwork networks x = false ↔ ∀ n ∈ networks, n.ip ≠ x := by
  simp [containsNetwork]

/-- Helper: invariant of the generation loop. If every collected network
has mask length 27, a 32-aligned base, and a base masking down to the
parent base `B`, and all collected bases are pairwise distinct, then the
same holds after running the loop, for any parent mask `p ≤ 27`. -/
theorem genLoop_inv (B p toIPv4 : Nat) (hp : p ≤ 27) :
    ∀ fuel i networks,
      (∀ b ∈ networks, b.maskLen = 27 ∧ b.ip % 32 = 0 ∧ maskN p b.ip = B) →
      networks.Pairwise (fun b c => b.ip ≠ c.ip) →
      (∀ b ∈ genLoop B p toIPv4 27 fuel i networks,
          b.maskLen = 27 ∧ b.ip % 32 = 0 ∧ maskN p b.ip = B) ∧
        (genLoop B p toIPv4 27 fuel i networks).Pairwise (fun b c => b.ip ≠ c.ip) := by
  intro fuel
  induction fuel with
  | zero => intro i networks h1 h2; exact ⟨h1, h2⟩
  | succ n ih =>
    intro i networks h1 h2
    unfold genLoop
    split
    case isTrue hc =>
      split
      case isTrue hm => exact ih (i + 1) networks h1 h2
      case isFalse hm =>
        have hc2 : maskN p (incrementIP toIPv4 i) = B := by
          simpa [cidrContains] using hc
        have hm2 : ∀ b ∈ networks, b.ip ≠ maskN 27 (incrementIP toIPv4 i) :=
          (containsNetwork_eq_false _ _).mp (by simpa using hm)
        apply ih (i + 1)
        · intro b hb
          rcases List.mem_append.mp hb with hb | hb
          · exact h1 b hb
          · rcases List.mem_singleton.mp hb with rfl
            exact ⟨rfl, maskN27_mod_32 _, by rw [maskN_maskN p 27 _ hp (by norm_num), hc2]⟩
        · rw [List.pairwise_append]
          refine ⟨h2, List.pairwise_singleton _ _, ?_⟩
          intro b hb c hc3
          rcases List.mem_singleton.mp hc3 with rfl
          exact hm2 b hb
    case isFalse => exact ⟨h1, h2⟩

/-- C3: for every VPC whose CIDR block parses with a mask length strictly
below 27, every block returned by `buildSubnetAddress` has mask length
exactly 27 and is fully contained in the VPC's CIDR block (every address
of the block is contained), and the returned blocks are pairwise
non-overlapping: no two share a base address. -/
theorem buildSubnetAddress_blocks_valid (v : Vpc) (ip p : Nat)
    (hv : v.cidrBlock = .valid ip p) (hp : p < 27)
    (l : List IPNet) (hl : buildSubnetAddress v = .ok l) :
    (∀ b ∈ l, b.maskLen = 27 ∧
      ∀ a, b.ip ≤ a → a < b.ip + 32 → cidrContains (maskN p ip) p a = true) ∧
    l.Pairwise (fun b c => b.ip ≠ c.ip) := by
  have hp27 : ¬ defaultSubnetMask ≤ p := by simp [defaultSubnetMask]; omega
  rw [buildSubnetAddress, hv] at hl
  simp only [hp27, if_false, Except.ok.injEq] at hl
  subst hl
  have hinit1 : ∀ b ∈ [(⟨maskN defaultSubnetMask (maskN p ip), defaultSubnetMask⟩ : IPNet)],
      b.maskLen = 27 ∧ b.ip % 32 = 0 ∧ maskN p b.ip = maskN p ip := by
    intro b hb
    rcases List.mem_singleton.mp hb with rfl
    refine ⟨rfl, maskN27_mod_32 _, ?_⟩
    show maskN p (maskN 27 (maskN p ip)) = maskN p ip
    rw [maskN_maskN p 27 _ (by omega) (by norm_num),
      maskN_maskN p p ip (le_refl p) (by omega)]
  have hinv := genLoop_inv (maskN p ip) p (maskN defaultSubnetMask (maskN p ip)) (by omega)
    (2 ^ 32) 0 _ hinit1 (List.pairwise_singleton _ _)
  rw [generateAvailableSubnets]
  constructor
  · intro b hb
    have hb2 := hinv.1 b (List.mem_reverse.mp hb)
    refine ⟨hb2.1, ?_⟩
    intro a h1 h2
    have : maskN p a = maskN p ip :=
      maskN_of_block_member p (maskN p ip) b.ip a (by omega) hb2.2.1 hb2.2.2 h1 h2
    simp [cidrContains, this]
  · rw [List.pairwise_reverse]
    exact hinv.2.imp (fun h => Ne.symm h)

theorem buildSubnetAddress_blocks_valid_witness :
    (Vpc.mk "vpc-w3" (.valid 167772160 26)).cidrBlock = .valid 167772160 26 ∧
      26 < 27 ∧
      buildSubnetAddress ⟨"vpc-w3", .valid 167772160 26⟩ =
        .ok [⟨167772192, 27⟩, ⟨167772160, 27⟩] ∧
      ((∀ b ∈ ([⟨167772192, 27⟩, ⟨167772160, 27⟩] : List IPNet), b.maskLen = 27 ∧
          ∀ a, b.ip ≤ a → a < b.ip + 32 → cidrContains (maskN 26 167772160) 26 a = true) ∧
        ([⟨167772192, 27⟩, ⟨167772160, 27⟩] : List IPNet).Pairwise
          (fun b c => b.ip ≠ c.ip)) :=
  ⟨rfl, by norm_num, by rfl,
    buildSubnetAddress_blocks_valid ⟨"vpc-w3", .valid 167772160 26⟩ 167772160 26 rfl
      (by norm_num) _ (by rfl)⟩

/-- Helper: one loop step that skips an already-collected network. -/
theorem genLoop_step_skip (fromIP fromPre toIPv4 toPre fuel i : Nat) (networks : List IPNet)
    (hc : cidrContains fromIP fromPre (incrementIP toIPv4 i) = true)
    (hm : containsNetwork networks (maskN toPre (incrementIP toIPv4 i)) = true) :
    genLoop fromIP fromPre toIPv4 toPre (fuel + 1) i networks =
      genLoop fromIP fromPre toIPv4 toPre fuel (i + 1) networks := by
  simp only [genLoop]
  rw [hc, hm]
  simp

/-- Helper: one loop step that appends a fresh network. -/
theorem genLoop_step_append (fromIP fromPre toIPv4 toPre fuel i : Nat) (networks : List IPNet)
    (hc : cidrContains fromIP fromPre (incrementIP toIPv4 i) = true)
    (hm : containsNetwork networks (maskN toPre (incrementIP toIPv4 i)) = false) :
    genLoop fromIP fromPre toIPv4 toPre (fuel + 1) i networks =
      genLoop fromIP fromPre toIPv4 toPre fuel (i + 1)
        (networks ++ [⟨maskN toPre (incrementIP toIPv4 i), toPre⟩]) := by
  simp only [genLoop]
  rw [hc, hm]
  simp

/-- Helper: the loop stops when the stepped address leaves the parent. -/
theorem genLoop_stop (fromIP fromPre toIPv4 toPre fuel i : Nat) (networks : List IPNet)
    (hc : cidrContains fromIP fromPre (incrementIP toIPv4 i) = false) :
    genLoop fromIP fromPre toIPv4 toPre (fuel + 1) i networks = networks := by
  simp only [genLoop]
  rw [hc]
  simp

/-- Helper: membership of a base address in a mapped range of
`10.0.0.0/16` sub-blocks. -/
theorem containsNetwork_map_range (n x : Nat) :
    containsNetwork ((List.range n).map (fun k => (⟨167772160 + 32 * k, 27⟩ : IPNet))) x =
      true ↔ ∃ k < n, 167772160 + 32 * k = x := by
  simp [containsNetwork, List.any_eq_true, List.mem_map, List.mem_range]

/-- Helper: closed form of the generation loop for the VPC
`10.0.0.0/16` (packed base `167772160`, mask length 16): once `j`
addresses have been examined, finishing the loop yields exactly the 2048
`/27` sub-blocks of the VPC in increasing order of base address. -/
theorem genLoop_closed_10_0_0_0_16 :
    ∀ fuel j, j ≤ 65536 → 65536 - j ≤ fuel →
      genLoop 167772160 16 167772160 27 fuel j
        ((List.range ((j - 1) / 32 + 1)).map (fun k => (⟨167772160 + 32 * k, 27⟩ : IPNet))) =
      (List.range 2048).map (fun k => (⟨167772160 + 32 * k, 27⟩ : IPNet)) := by
  intro fuel
  induction fuel with
  | zero =>
    intro j hj hf
    have hj2 : j = 65536 := by omega
    subst hj2
    unfold genLoop
    norm_num
  | succ n ih =>
    intro j hj hf
    by_cases hjS : j = 65536
    · subst hjS
      rw [genLoop_stop _ _ _ _ _ _ _ (by decide)]
    · have hjlt : j < 65536 := by omega
      have htrue : cidrContains 167772160 16 (incrementIP 167772160 j) = true := by
        rw [incrementIP_eq _ _ (by norm_num)]
        simp only [cidrContains, maskN, beq_iff_eq]
        norm_num
        omega
      have hmasked : maskN 27 (incrementIP 167772160 j) = 167772160 + 32 * (j / 32) := by
        rw [incrementIP_eq _ _ (by norm_num)]
        simp only [maskN]
        norm_num
        omega
      have hmem_iff :
          containsNetwork
              ((List.range ((j - 1) / 32 + 1)).map
                (fun k => (⟨167772160 + 32 * k, 27⟩ : IPNet)))
              (167772160 + 32 * (j / 32)) = true ↔ j / 32 < (j - 1) / 32 + 1 := by
        rw [containsNetwork_map_range]
        constructor
        · rintro ⟨k, hk, he⟩
          omega
        · intro h
          exact ⟨j / 32, h, rfl⟩
      by_cases hskip : j / 32 < (j - 1) / 32 + 1
      · rw [genLoop_step_skip _ _ _ _ _ _ _ htrue (by rw [hmasked]; exact hmem_iff.mpr hskip)]
        have hacc : (j - 1) / 32 + 1 = (j + 1 - 1) / 32 + 1 := by omega
        rw [hacc]
        exact ih (j + 1) (by omega) (by omega)
      · have hmem : containsNetwork
            ((List.range ((j - 1) / 32 + 1)).map
              (fun k => (⟨167772160 + 32 * k, 27⟩ : IPNet)))
            (maskN 27 (incrementIP 167772160 j)) = false := by
          rw [hmasked]
          cases hb : containsNetwork
              ((List.range ((j - 1) / 32 + 1)).map
                (fun k => (⟨167772160 + 32 * k, 27⟩ : IPNet)))
              (167772160 + 32 * (j / 32)) with
          | false => rfl
          | true => exact absurd (hmem_iff.mp hb) hskip
        rw [genLoop_step_append _ _ _ _ _ _ _ htrue hmem, hmasked]
        have happ : (List.range ((j - 1) / 32 + 1)).map
              (fun k => (⟨167772160 + 32 * k, 27⟩ : IPNet)) ++
              [⟨167772160 + 32 * (j / 32), 27⟩] =
            (List.range ((j + 1 - 1) / 32 + 1)).map
              (fun k => (⟨167772160 + 32 * k, 27⟩ : IPNet)) := by
          have h1 : (j + 1 - 1) / 32 + 1 = ((j - 1) / 32 + 1) + 1 := by omega
          have h2 : j / 32 = (j - 1) / 32 + 1 := by omega
          rw [h1]
          conv_rhs => rw [List.range_succ, List.map_append]
          congr 1
          simp only [List.map_cons, List.map_nil]
          rw [← h2]
        rw [happ]
        exact ih (j + 1) (by omega) (by omega)

/-- Helper: the last element of a mapped range. -/
theorem getLast?_map_range {α : Type} (f : Nat → α) (n : Nat) :
    ((List.range (n + 1)).map f).getLast? = some (f n) := by
  rw [List.range_succ, List.map_append]
  exact List.getLast?_concat _

/-- C6: the candidate sequence returned by `buildSubnetAddress` is the
exact reverse of the generation order; in particular for VPC CIDR
`10.0.0.0/16` (packed `167772160/16`) the first returned `/27`
candidate's base address is the highest valid `/27` network address in
the VPC, `10.0.255.224` (packed `167837664`), not the lowest. -/
theorem buildSubnetAddress_reverse_order :
    buildSubnetAddress ⟨"vpc-cluster", .valid 167772160 16⟩ =
      .ok (generateAvailableSubnets (maskN 16 167772160) 16
            (maskN defaultSubnetMask (maskN 16 167772160)) defaultSubnetMask).reverse ∧
    ∃ l, buildSubnetAddress ⟨"vpc-cluster", .valid 167772160 16⟩ = .ok l ∧
      l.head? = some ⟨167837664, 27⟩ := by
  have hmask16 : maskN 16 167772160 = 167772160 := by
    unfold maskN
    norm_num
  have hmask27 : maskN 27 167772160 = 167772160 := by
    unfold maskN
    norm_num
  have hgen : generateAvailableSubnets 167772160 16 167772160 27 =
      (List.range 2048).map (fun k => (⟨167772160 + 32 * k, 27⟩ : IPNet)) := by
    unfold generateAvailableSubnets
    have hinit : [(⟨167772160, 27⟩ : IPNet)] =
        (List.range ((0 - 1) / 32 + 1)).map
          (fun k => (⟨167772160 + 32 * k, 27⟩ : IPNet)) := by
      decide
    rw [hinit]
    exact genLoop_closed_10_0_0_0_16 (2 ^ 32) 0 (by norm_num) (by norm_num)
  refine ⟨rfl, (generateAvailableSubnets (maskN 16 167772160) 16
      (maskN defaultSubnetMask (maskN 16 167772160)) defaultSubnetMask).reverse, rfl, ?_⟩
  show (generateAvailableSubnets (maskN 16 167772160) 16
      (maskN defaultSubnetMask (maskN 16 167772160)) defaultSubnetMask).reverse.head? =
    some ⟨167837664, 27⟩
  rw [show defaultSubnetMask = 27 from rfl, hmask16, hmask27, hgen, List.head?_reverse]
  have h2048 : (2048 : Nat) = 2047 + 1 := by norm_num
  rw [h2048, getLast?_map_range]

/-- C1 (behaviour of the code at the claim's failing input): when every
`CreateSubnet` attempt returns the address-conflict error, the loop in
`createPrivateSubnet` exhausts the candidate sequence for the
`10.0.0.0/26` VPC, `subnet` stays `nil`, the `if subnet == nil` block is
empty, and the function returns a nil subnet together with a nil error —
not an `AddressSpaceExhausted` (or any) error. -/
theorem createPrivateSubnet_exhaustion_nil_nil :
    (createPrivateSubnet conflictCreateFn (.ok []) noTagErrFn
        ⟨"vpc-1", .valid 167772160 26⟩ "zone-1").1 = none ∧
    (createPrivateSubnet conflictCreateFn (.ok []) noTagErrFn
        ⟨"vpc-1", .valid 167772160 26⟩ "zone-1").2.1 = none := by
  constructor <;> rfl

/-- C5: during candidate iteration, an attempt that fails with the AWS
address-conflict error (`InvalidSubnet.Conflict`) discards the candidate
and continues with the remaining ones without surfacing an error of its
own (the result is exactly that of the remaining candidates, plus the
recorded request); an attempt that fails with any other error aborts
immediately with an error wrapping the underlying cause. -/
theorem createSubnetAttempts_conflict_vs_other
    (createFn : String → IPNet → Except GoError Subnet)
    (defaultTagsRes : Except GoError (List Tag))
    (createTagsFn : Subnet → List Tag → Option GoError)
    (vpcId zone : String) (ip : IPNet) (rest : List IPNet) (e : GoError)
    (h : createFn zone ip = .error e) :
    (isAwsConflict e = true →
      createSubnetAttempts createFn defaultTagsRes createTagsFn vpcId zone (ip :: rest) =
        ((createSubnetAttempts createFn defaultTagsRes createTagsFn vpcId zone rest).1,
          (createSubnetAttempts createFn defaultTagsRes createTagsFn vpcId zone rest).2.1,
          .createSubnetReq vpcId zone ip ::
            (createSubnetAttempts createFn defaultTagsRes createTagsFn vpcId zone rest).2.2)) ∧
    (isAwsConflict e = false →
      createSubnetAttempts createFn defaultTagsRes createTagsFn vpcId zone (ip :: rest) =
        (none, some (.wrap e "error creating new subnet"),
          [.createSubnetReq vpcId zone ip])) := by
  constructor
  · intro hconf
    rcases hrest : createSubnetAttempts createFn defaultTagsRes createTagsFn vpcId zone rest
      with ⟨s1, e1, v1⟩
    simp only [createSubnetAttempts, h, hconf, if_true, hrest]
  · intro hconf
    simp only [createSubnetAttempts, h, hconf, Bool.false_eq_true, if_false]

theorem createSubnetAttempts_conflict_vs_other_witness :
    (isAwsConflict (.aws ⟨"InvalidSubnet.Conflict"⟩) = true →
      createSubnetAttempts conflictCreateFn (.ok []) noTagErrFn "vpc-1" "zone-1"
          [⟨167772192, 27⟩, ⟨167772160, 27⟩] =
        ((createSubnetAttempts conflictCreateFn (.ok []) noTagErrFn "vpc-1" "zone-1"
            [⟨167772160, 27⟩]).1,
          (createSubnetAttempts conflictCreateFn (.ok []) noTagErrFn "vpc-1" "zone-1"
            [⟨167772160, 27⟩]).2.1,
          .createSubnetReq "vpc-1" "zone-1" ⟨167772192, 27⟩ ::
            (createSubnetAttempts conflictCreateFn (.ok []) noTagErrFn "vpc-1" "zone-1"
              [⟨167772160, 27⟩]).2.2)) ∧
    (isAwsConflict (.aws ⟨"InvalidSubnet.Conflict"⟩) = false →
      createSubnetAttempts conflictCreateFn (.ok []) noTagErrFn "vpc-1" "zone-1"
          [⟨167772192, 27⟩, ⟨167772160, 27⟩] =
        (none, some (.wrap (.aws ⟨"InvalidSubnet.Conflict"⟩) "error creating new subnet"),
          [.createSubnetReq "vpc-1" "zone-1" ⟨167772192, 27⟩])) :=
  createSubnetAttempts_conflict_vs_other conflictCreateFn (.ok []) noTagErrFn "vpc-1" "zone-1"
    ⟨167772192, 27⟩ [⟨167772160, 27⟩] (.aws ⟨"InvalidSubnet.Conflict"⟩) rfl

/-- C8: when a creation attempt succeeds but the subsequent `CreateTags`
call fails, `createPrivateSubnet` surfaces the tagging failure as its
error (with no subnet in the result), and the recorded requests contain
no subnet-deletion request: the created subnet is retained, not rolled
back. -/
theorem createPrivateSubnet_tag_failure_retains
    (createFn : String → IPNet → Except GoError Subnet)
    (createTagsFn : Subnet → List Tag → Option GoError)
    (vpc : Vpc) (zone : String) (ip : IPNet) (rest : List IPNet)
    (s : Subnet) (tags : List Tag) (e : GoError)
    (hplan : buildSubnetAddress vpc = .ok (ip :: rest))
    (hcreate : createFn zone ip = .ok s)
    (hctf : createTagsFn s tags = some e) :
    createPrivateSubnet createFn (.ok tags) createTagsFn vpc zone =
      (none, some (.wrap e "failed to tag subnet"),
        [.createSubnetReq vpc.vpcId zone ip, .createTagsReq s.subnetId]) ∧
    ∀ ev ∈ (createPrivateSubnet createFn (.ok tags) createTagsFn vpc zone).2.2,
      ev.isDelete = false := by
  have h1 : createPrivateSubnet createFn (.ok tags) createTagsFn vpc zone =
      (none, some (.wrap e "failed to tag subnet"),
        [.createSubnetReq vpc.vpcId zone ip, .createTagsReq s.subnetId]) := by
    simp only [createPrivateSubnet, hplan, createSubnetAttempts, hcreate,
      tagPrivateSubnet, hctf]
  refine ⟨h1, ?_⟩
  rw [h1]
  intro ev hev
  rcases List.mem_cons.mp hev with rfl | hev2
  · rfl
  · rcases List.mem_cons.mp hev2 with rfl | hev3
    · rfl
    · cases hev3

theorem createPrivateSubnet_tag_failure_retains_witness :
    createPrivateSubnet okCreateFn (.ok []) failTagFn
        ⟨"vpc-1", .valid 167772160 26⟩ "zone-1" =
      (none, some (.wrap (.new "tag api down") "failed to tag subnet"),
        [.createSubnetReq "vpc-1" "zone-1" ⟨167772192, 27⟩, .createTagsReq "subnet-new"]) ∧
    ∀ ev ∈ (createPrivateSubnet okCreateFn (.ok []) failTagFn
        ⟨"vpc-1", .valid 167772160 26⟩ "zone-1").2.2, ev.isDelete = false :=
  createPrivateSubnet_tag_failure_retains okCreateFn failTagFn
    ⟨"vpc-1", .valid 167772160 26⟩ "zone-1" ⟨167772192, 27⟩ [⟨167772160, 27⟩]
    ⟨"subnet-new", "vpc-1", "zone-1", []⟩ [] (.new "tag api down") (by rfl) rfl rfl

/-- Helper: on a slice of non-nil subnet pointers the running-slice
version of the existence check agrees with `privateSubnetExists`. -/
theorem privateSubnetExistsO_map_some (az : AZ) :
    ∀ l : List Subnet, privateSubnetExistsO (l.map some) az =
      some (privateSubnetExists l az) := by
  intro l
  induction l with
  | nil => rfl
  | cons s rest ih =>
    simp only [List.map_cons, privateSubnetExistsO, privateSubnetExists, List.any_cons]
    by_cases hb : (s.availabilityZone == az.zoneName && az.state == "available") = true
    · simp [hb]
    · simp only [Bool.not_eq_true] at hb
      simp only [hb, if_false, Bool.false_or]
      exact ih

/-- Helper: when every zone is covered, the per-AZ loop changes nothing,
errors nowhere, and issues no request. -/
theorem processAZs_covered (createFn : String → IPNet → Except GoError Subnet)
    (defaultTagsRes : Except GoError (List Tag))
    (createTagsFn : Subnet → List Tag → Option GoError) (vpc : Vpc) :
    ∀ (azs : List AZ) (privSubs : List Subnet),
      (∀ az ∈ azs, privateSubnetExists privSubs az = true) →
      processAZs createFn defaultTagsRes createTagsFn vpc azs (privSubs.map some) =
        (.done (privSubs.map some) none, []) := by
  intro azs
  induction azs with
  | nil => intro privSubs _; rfl
  | cons az rest ih =>
    intro privSubs h
    have hcov := h az (List.mem_cons_self az rest)
    simp only [processAZs, privateSubnetExistsO_map_some, hcov]
    exact ih privSubs (fun a ha => h a (List.mem_cons_of_mem _ ha))

/-- Helper: collecting the ids of a slice of non-nil subnet pointers. -/
theorem collectIds_map_some :
    ∀ l : List Subnet, collectIds (l.map some) = some (l.map Subnet.subnetId) := by
  intro l
  induction l with
  | nil => rfl
  | cons s rest ih =>
    simp only [List.map_cons, collectIds, ih]
    rfl

/-- C7: when every availability zone already has an available private
subnet (a marker-tagged subnet of the VPC in a zone whose state is
`"available"`), `GetPrivateSubnetIDS` issues no subnet-creation (indeed
no mutating) request and returns exactly the identifiers of the
pre-existing private subnets, with no error. -/
theorem GetPrivateSubnetIDS_all_covered
    (v : Vpc) (subs : List Subnet) (azs : List AZ)
    (createFn : String → IPNet → Except GoError Subnet)
    (defaultTagsRes : Except GoError (List Tag))
    (createTagsFn : Subnet → List Tag → Option GoError)
    (hne : azs ≠ [])
    (hcov : ∀ az ∈ azs,
      privateSubnetExists
        (filterPrivate (subs.filter (fun sub => sub.vpcId == v.vpcId))) az = true) :
    GetPrivateSubnetIDS (.ok v) (.ok subs) (.ok azs) createFn defaultTagsRes createTagsFn =
      (.ret (some ((filterPrivate (subs.filter (fun sub => sub.vpcId == v.vpcId))).map
        Subnet.subnetId)) none, []) := by
  obtain ⟨az0, azs', rfl⟩ : ∃ a t, azs = a :: t := by
    cases azs with
    | nil => exact absurd rfl hne
    | cons a t => exact ⟨a, t, rfl⟩
  have hpriv_ne : filterPrivate (subs.filter (fun sub => sub.vpcId == v.vpcId)) ≠ [] := by
    have h0 := hcov az0 (List.mem_cons_self az0 azs')
    rw [privateSubnetExists, List.any_eq_true] at h0
    obtain ⟨s, hs, _⟩ := h0
    exact List.ne_nil_of_mem hs
  have hassoc_ne : subs.filter (fun sub => sub.vpcId == v.vpcId) ≠ [] := by
    intro hnil
    apply hpriv_ne
    rw [hnil]
    rfl
  have hgvs : GetVPCSubnets (.ok subs) (some v) =
      (some (subs.filter (fun sub => sub.vpcId == v.vpcId)), none) := by
    simp only [GetVPCSubnets]
    rw [if_neg (by simpa [List.isEmpty_eq_false] using hassoc_ne)]
  rw [GetPrivateSubnetIDS, hgvs]
  simp only [Option.getD_some]
  rw [processAZs_covered createFn defaultTagsRes createTagsFn v (az0 :: azs') _ hcov]
  simp only [collectIds_map_some]
  rw [if_neg (by
    rw [Bool.not_eq_true, List.isEmpty_eq_false]
    simp only [ne_eq, List.map_eq_nil_iff]
    exact hpriv_ne)]

theorem GetPrivateSubnetIDS_all_covered_witness :
    GetPrivateSubnetIDS
        (.ok ⟨"vpc-1", .valid 167772160 26⟩)
        (.ok [⟨"subnet-1", "vpc-1", "zone-1", [⟨"kubernetes.io/role/internal-elb", "1"⟩]⟩])
        (.ok [⟨"zone-1", "available"⟩]) conflictCreateFn (.ok []) noTagErrFn =
      (.ret (some ((filterPrivate
          (([⟨"subnet-1", "vpc-1", "zone-1", [⟨"kubernetes.io/role/internal-elb", "1"⟩]⟩] :
            List Subnet).filter
            (fun sub => sub.vpcId == (Vpc.mk "vpc-1" (.valid 167772160 26)).vpcId))).map
        Subnet.subnetId)) none, []) :=
  GetPrivateSubnetIDS_all_covered ⟨"vpc-1", .valid 167772160 26⟩
    [⟨"subnet-1", "vpc-1", "zone-1", [⟨"kubernetes.io/role/internal-elb", "1"⟩]⟩]
    [⟨"zone-1", "available"⟩] conflictCreateFn (.ok []) noTagErrFn
    (by decide) (by decide)

/-- C2 counterexample: a region with a single zone `zone-1` in state
`"impaired"` that even has a marker-tagged private subnet; the
reconciliation loop still issues a subnet-creation request targeting
`zone-1`, so a non-`available` zone is not exempt from creation. -/
theorem impaired_zone_gets_create_request :
    ((GetPrivateSubnetIDS
        (.ok ⟨"vpc-1", .valid 167772160 26⟩)
        (.ok [⟨"subnet-1", "vpc-1", "zone-1", [⟨"kubernetes.io/role/internal-elb", "1"⟩]⟩])
        (.ok [⟨"zone-1", "impaired"⟩]) okCreateFn (.ok []) noTagErrFn).2).any
      (isCreateSubnetReqIn "zone-1") = true := by
  rfl

/-- C2 amended: a zone whose lifecycle state is not `"available"` is
never classified as covered — `privateSubnetExists` returns `false` for
it regardless of the existing private subnets — so the reconciliation
loop treats every such zone as a creation target instead of skipping
it. -/
theorem privateSubnetExists_not_available (privSubs : List Subnet) (az : AZ)
    (h : az.state ≠ "available") : privateSubnetExists privSubs az = false := by
  rw [privateSubnetExists, List.any_eq_false]
  intro s _
  simp [h]

theorem privateSubnetExists_not_available_witness :
    privateSubnetExists
      [⟨"subnet-1", "vpc-1", "zone-1", [⟨"kubernetes.io/role/internal-elb", "1"⟩]⟩]
      ⟨"zone-1", "impaired"⟩ = false :=
  privateSubnetExists_not_available _ _ (by decide)

end ClusterNetwork
